import Mathlib

/-!
Shallow embedding of the `EmailHelper` component of the repository
(`src/utils/email_helper.py`) together with proofs about the claims of its
specification.  Pure computations (message building, filter compilation,
body decoding, truncation) are translated directly from the Python source;
the external SMTP/IMAP transport is modelled as an explicit behaviour
record whose operations either return a value or raise an exception
(`Except`), and the remote mail store is modelled from the specification's
description of the server (flags, search, expunge).
-/

namespace EmailHelper

/-! ### Python string primitives used by the source -/

/-- Python `str.strip()` whitespace set: space, tab, newline, carriage
return, vertical tab, form feed. -/
def pyWhitespace (c : Char) : Bool :=
  c = ' ' || c = '\t' || c = '\n' || c = '\r' || c = Char.ofNat 11 || c = Char.ofNat 12

/-- Python `str.strip()`: remove leading and trailing whitespace. -/
def pyStrip (s : String) : String :=
  String.mk (((s.data.dropWhile pyWhitespace).reverse.dropWhile pyWhitespace).reverse)

/-- A byte sequence to be decoded as text: `some c` is a byte sequence that
decodes to the character `c`, `none` is an undecodable byte. -/
abbrev Bytes := List (Option Char)

/-- Python `bytes.decode('utf-8', errors='ignore')`: decode, discarding
undecodable bytes instead of raising. -/
def decodeIgnore (p : Bytes) : String :=
  String.mk (p.filterMap id)

/-- Encode a plain string as `Bytes` (every byte decodable). -/
def strBytes (s : String) : Bytes :=
  s.data.map some

/-- Does `needle` occur at the start of `hay`? -/
def startsWithL : List Char → List Char → Bool
  | [], _ => true
  | _ :: _, [] => false
  | a :: as, b :: bs => a = b && startsWithL as bs

/-- Python `needle in hay` on strings as character lists. -/
def containsSub (needle : List Char) : List Char → Bool
  | [] => startsWithL needle []
  | c :: rest => startsWithL needle (c :: rest) || containsSub needle rest

/-! ### The tag-stripping regex `re.sub('<[^<]+?>', '', s)` -/

/-- `re.sub('<[^<]+?>', '', s)` on character lists, as a left-to-right
scan.  The second argument is the scanner state: `none` while outside a
candidate match, `some buf` (consumed characters, reversed) after an
opening `<` while the lazy `[^<]+?` is being consumed.  The first `>`
after at least one consumed character closes the shortest match and the
whole match is removed; a `<` aborts the candidate (its characters were
all literal) and opens a new candidate; a candidate still open at the end
of input is literal text. -/
def stripTagsGo : List Char → Option (List Char) → List Char
  | [], none => []
  | [], some buf => '<' :: buf.reverse
  | c :: rest, none =>
    if c = '<' then stripTagsGo rest (some [])
    else c :: stripTagsGo rest none
  | c :: rest, some buf =>
    if c = '>' then
      (if buf.isEmpty then stripTagsGo rest (some ['>'])
       else stripTagsGo rest none)
    else if c = '<' then ('<' :: buf.reverse) ++ stripTagsGo rest (some [])
    else stripTagsGo rest (some (c :: buf))

/-- `re.sub('<[^<]+?>', '', s)` on strings. -/
def stripTags (s : String) : String :=
  String.mk (stripTagsGo s.data none)

/-! ### Message parts and body decoding (`EmailHelper._get_email_body`) -/

/-- One leaf part of a parsed message, as seen by `msg.walk()`:
the content type, the stringified `Content-Disposition` header
(`str(part.get("Content-Disposition"))`, i.e. `"None"` when absent), and
the raw payload bytes. -/
structure Part where
  content_type : String
  content_disposition : String
  payload : Bytes
deriving DecidableEq, Repr

/-- A parsed message: either multipart (the leaf parts in `walk()` order;
the multipart containers themselves match neither branch of the source's
loop and are omitted) or single-part with one payload. -/
inductive EmailMsg where
  | multipart (parts : List Part)
  | single (payload : Bytes)
deriving DecidableEq, Repr

/-- The loop body of `_get_email_body` over the walked parts, carrying the
accumulated `body` variable.  A plain-text part whose disposition does not
contain `"attachment"` is decoded and ends the loop; otherwise an HTML part
is tag-stripped into `body` when `body` is still falsy (the empty string). -/
def getBodyLoop : List Part → String → String
  | [], body => body
  | p :: rest, body =>
    if p.content_type == "text/plain" && !(containsSub "attachment".data p.content_disposition.data) then
      decodeIgnore p.payload
    else if p.content_type == "text/html" && body == "" then
      getBodyLoop rest (stripTags (decodeIgnore p.payload))
    else
      getBodyLoop rest body

/-- `EmailHelper._get_email_body`: decode the body of a fetched message and
strip surrounding whitespace. -/
def get_email_body : EmailMsg → String
  | .multipart parts => pyStrip (getBodyLoop parts "")
  | .single payload => pyStrip (decodeIgnore payload)

/-- The specification's predicate for the preferred part: plain text whose
disposition is not an attachment. -/
def isPlainNonAttachment (p : Part) : Bool :=
  p.content_type == "text/plain" && !(containsSub "attachment".data p.content_disposition.data)

/-- First plain-text non-attachment part, in walk order. -/
def firstPlainPart (parts : List Part) : Option Part :=
  parts.find? isPlainNonAttachment

/-- The tag-stripped decodings of the HTML parts, in walk order. -/
def htmlStrips (parts : List Part) : List String :=
  (parts.filter (fun p => p.content_type == "text/html")).map
    (fun p => stripTags (decodeIgnore p.payload))

/-- Specification-style description of the multipart decoding result
(before the final whitespace strip): the first plain-text non-attachment
part decoded, else the first HTML part whose tag-stripped content is
non-empty, else the empty string. -/
def bodySpec (parts : List Part) : String :=
  match firstPlainPart parts with
  | some p => decodeIgnore p.payload
  | none => ((htmlStrips parts).find? (fun s => !(s == ""))).getD ""

/-! ### SMTP side (`EmailHelper.send_email`) -/

/-- The credentials held by the helper (constructor arguments / env). -/
structure Cfg where
  email_address : String
  password : String
deriving DecidableEq, Repr

/-- The arguments of `send_email`. -/
structure SendInput where
  to_email : String
  subject : String
  body : String
  cc : Option (List String)
  bcc : Option (List String)
  html : Bool
deriving DecidableEq, Repr

/-- Python truthiness of an optional list argument (`if cc:`): `None` and
the empty list are falsy. -/
def truthyList (o : Option (List String)) : Bool :=
  match o with
  | none => false
  | some l => !l.isEmpty

/-- Python `", ".join(l)`. -/
def joinComma : List String → String
  | [] => ""
  | [x] => x
  | x :: y :: rest => x ++ ", " ++ joinComma (y :: rest)

/-- Python `" ".join(l)`. -/
def joinSpace : List String → String
  | [] => ""
  | [x] => x
  | x :: y :: rest => x ++ " " ++ joinSpace (y :: rest)

/-- The structured message built by `send_email`: visible headers, the
content subtype passed to `MIMEText`, and the body text. -/
structure MimeMessage where
  headers : List (String × String)
  content_type : String
  body : String
deriving DecidableEq, Repr

/-- Message construction in `send_email`: `From`, `To`, `Subject` headers,
a `Cc` header when `cc` is truthy, and one `MIMEText` part whose subtype is
`"html"` or `"plain"` according to the `html` flag.  `bcc` is not used. -/
def buildMessage (cfg : Cfg) (inp : SendInput) : MimeMessage :=
  { headers :=
      [("From", cfg.email_address), ("To", inp.to_email), ("Subject", inp.subject)]
        ++ (if truthyList inp.cc then [("Cc", joinComma (inp.cc.getD []))] else [])
  , content_type := if inp.html then "html" else "plain"
  , body := inp.body }

/-- Recipient list handed to `send_message` as `to_addrs`: the primary
recipient, then the cc list when truthy, then the bcc list when truthy. -/
def buildRecipients (inp : SendInput) : List String :=
  [inp.to_email]
    ++ (if truthyList inp.cc then inp.cc.getD [] else [])
    ++ (if truthyList inp.bcc then inp.bcc.getD [] else [])

/-- Exception classes distinguished by `send_email`'s handlers:
`smtplib.SMTPAuthenticationError` versus any other `Exception`. -/
inductive SmtpExc where
  | authentication
  | other
deriving DecidableEq, Repr

/-- Behaviour of the SMTP server/transport during one `send_email` call:
each step of the `with smtplib.SMTP(...)` block either succeeds or raises. -/
structure SmtpBehavior where
  connect : Except SmtpExc Unit
  starttls : Except SmtpExc Unit
  login : Except SmtpExc Unit
  send : Except SmtpExc Unit
deriving Repr

/-- The body of `send_email`'s `try` block seen as a fallible computation:
connect, STARTTLS, login, transmit. -/
def smtpAttempt (sb : SmtpBehavior) : Except SmtpExc Unit := do
  sb.connect
  sb.starttls
  sb.login
  sb.send

/-- The diagnostics printed by `send_email`: the success message, the
distinct authentication-failure message, or the generic failure message. -/
inductive SendDiag where
  | sentOk
  | authFailed
  | sendFailed
deriving DecidableEq, Repr

/-- Observable outcome of one `send_email` call: the returned boolean, the
diagnostic printed, the message and recipient list handed to
`send_message` (when transmission succeeded), and whether the SMTP session
was opened and released. -/
structure SendOutcome where
  result : Bool
  diag : SendDiag
  transmitted : Option (MimeMessage × List String)
  opened : Bool
  released : Bool
deriving Repr

/-- `EmailHelper.send_email`: build the message and recipient list, run the
SMTP session, and convert every exception into a `false` return (the
`with` statement closes the session whenever it was opened). -/
def send_email (cfg : Cfg) (inp : SendInput) (sb : SmtpBehavior) : SendOutcome :=
  let message := buildMessage cfg inp
  let recipients := buildRecipients inp
  let opened := match sb.connect with
    | .ok _ => true
    | .error _ => false
  match smtpAttempt sb with
  | .ok _ =>
      { result := true, diag := .sentOk, transmitted := some (message, recipients)
      , opened := opened, released := opened }
  | .error .authentication =>
      { result := false, diag := .authFailed, transmitted := none
      , opened := opened, released := opened }
  | .error .other =>
      { result := false, diag := .sendFailed, transmitted := none
      , opened := opened, released := opened }

/-! ### IMAP side (`read_emails`, `mark_as_read`, `delete_emails`,
`search_emails`) -/

/-- IMAP-side exceptions are not distinguished by the source (every handler
is a bare `except Exception`). -/
inductive ImapExc where
  | err
deriving DecidableEq, Repr

/-- The headers and content of one fetched message
(`email.message_from_bytes` result): absent headers are `none`. -/
structure FetchedMsg where
  subject : Option String
  sender : Option String
  rcpt : Option String
  date : Option String
  content : EmailMsg
deriving DecidableEq, Repr

/-- The record built for each fetched message by `read_emails`. -/
structure EmailData where
  id : String
  subject : Option String
  sender : Option String
  rcpt : Option String
  date : Option String
  body : String
deriving DecidableEq, Repr

/-- Behaviour of the IMAP connection during one call, over a server state
type `σ`: each operation either returns (a value and) the next state or
raises. -/
structure ImapConn (σ : Type) where
  connect : Except ImapExc σ
  login : σ → Except ImapExc σ
  select : String → σ → Except ImapExc σ
  search : String → σ → Except ImapExc (List String × σ)
  fetch : String → σ → Except ImapExc (FetchedMsg × σ)
  store : String → String → σ → Except ImapExc σ
  expunge : σ → Except ImapExc σ
  close : σ → Except ImapExc σ
  logout : σ → Except ImapExc σ

/-- Observable outcome of one IMAP-backed call: the value returned to the
caller (after exception handling), whether a session was opened
(`IMAP4_SSL` succeeded), whether it was released (`close`+`logout` ran),
and the final server state when the call completed normally. -/
structure ImapRun (σ : Type) (α : Type) where
  val : α
  opened : Bool
  released : Bool
  state : Option σ

/-- Filter resolution at the top of `read_emails`: a truthy
`search_criteria` wins, else `unread_only` selects `UNSEEN`, else `ALL`. -/
def buildCriteria (search_criteria : Option String) (unread_only : Bool) : String :=
  match search_criteria with
  | some s => if s == "" then (if unread_only then "UNSEEN" else "ALL") else s
  | none => if unread_only then "UNSEEN" else "ALL"

/-- `email_ids[-limit:] if len(email_ids) > limit else email_ids` with a
natural-number `limit` (Python's `xs[-0:]` is the whole list). -/
def pyTruncate (ids : List α) (limit : Nat) : List α :=
  if limit < ids.length then
    (if limit = 0 then ids else ids.drop (ids.length - limit))
  else ids

/-- The dictionary built for one fetched message. -/
def mkEmailData (i : String) (m : FetchedMsg) : EmailData :=
  { id := i, subject := m.subject, sender := m.sender, rcpt := m.rcpt
  , date := m.date, body := get_email_body m.content }

/-- The fetch/decode loop of `read_emails` over the retained identifiers. -/
def fetchLoop (c : ImapConn σ) : List String → σ → Except ImapExc (List EmailData × σ)
  | [], s => .ok ([], s)
  | i :: is, s => do
      let (m, s₁) ← c.fetch i s
      let (es, s₂) ← fetchLoop c is s₁
      pure (mkEmailData i m :: es, s₂)

/-- The body of `read_emails`'s `try` block after the connection was made:
login, select, search, truncate and reverse the identifiers, fetch and
decode each, then close and log out. -/
def readAttempt (c : ImapConn σ) (s₀ : σ) (folder : String) (limit : Nat)
    (unread_only : Bool) (search_criteria : Option String) :
    Except ImapExc (List EmailData × σ) := do
  let s ← c.login s₀
  let s ← c.select folder s
  let criteria := buildCriteria search_criteria unread_only
  let (ids, s) ← c.search criteria s
  let retained := (pyTruncate ids limit).reverse
  let (es, s) ← fetchLoop c retained s
  let s ← c.close s
  let s ← c.logout s
  pure (es, s)

/-- `EmailHelper.read_emails`: run the attempt and convert any exception
into an empty result; the session is released only when every step,
including `close` and `logout`, succeeded. -/
def read_emails (c : ImapConn σ) (folder : String) (limit : Nat)
    (unread_only : Bool) (search_criteria : Option String) :
    ImapRun σ (List EmailData) :=
  match c.connect with
  | .error _ => { val := [], opened := false, released := false, state := none }
  | .ok s₀ =>
    match readAttempt c s₀ folder limit unread_only search_criteria with
    | .ok (es, s) => { val := es, opened := true, released := true, state := some s }
    | .error _ => { val := [], opened := true, released := false, state := none }

/-- The whole fallible computation of `read_emails` (connection included),
used to state which calls succeed. -/
def readWhole (c : ImapConn σ) (folder : String) (limit : Nat)
    (unread_only : Bool) (search_criteria : Option String) :
    Except ImapExc (List EmailData × σ) :=
  match c.connect with
  | .error e => .error e
  | .ok s₀ => readAttempt c s₀ folder limit unread_only search_criteria

/-- The `mail.store` loop shared by `mark_as_read` and `delete_emails`. -/
def storeLoop (c : ImapConn σ) (flag : String) : List String → σ → Except ImapExc σ
  | [], s => .ok s
  | i :: is, s => do
      let s₁ ← c.store i flag s
      storeLoop c flag is s₁

/-- The body of `mark_as_read`'s `try` block after the connection. -/
def markAttempt (c : ImapConn σ) (s₀ : σ) (email_ids : List String)
    (folder : String) : Except ImapExc σ := do
  let s ← c.login s₀
  let s ← c.select folder s
  let s ← storeLoop c "\\Seen" email_ids s
  let s ← c.close s
  c.logout s

/-- `EmailHelper.mark_as_read`. -/
def mark_as_read (c : ImapConn σ) (email_ids : List String) (folder : String) :
    ImapRun σ Bool :=
  match c.connect with
  | .error _ => { val := false, opened := false, released := false, state := none }
  | .ok s₀ =>
    match markAttempt c s₀ email_ids folder with
    | .ok s => { val := true, opened := true, released := true, state := some s }
    | .error _ => { val := false, opened := true, released := false, state := none }

/-- The whole fallible computation of `mark_as_read`. -/
def markWhole (c : ImapConn σ) (email_ids : List String) (folder : String) :
    Except ImapExc σ :=
  match c.connect with
  | .error e => .error e
  | .ok s₀ => markAttempt c s₀ email_ids folder

/-- The body of `delete_emails`'s `try` block after the connection: flag
every requested identifier `\Deleted`, then `expunge`, then close. -/
def deleteAttempt (c : ImapConn σ) (s₀ : σ) (email_ids : List String)
    (folder : String) : Except ImapExc σ := do
  let s ← c.login s₀
  let s ← c.select folder s
  let s ← storeLoop c "\\Deleted" email_ids s
  let s ← c.expunge s
  let s ← c.close s
  c.logout s

/-- `EmailHelper.delete_emails`. -/
def delete_emails (c : ImapConn σ) (email_ids : List String) (folder : String) :
    ImapRun σ Bool :=
  match c.connect with
  | .error _ => { val := false, opened := false, released := false, state := none }
  | .ok s₀ =>
    match deleteAttempt c s₀ email_ids folder with
    | .ok s => { val := true, opened := true, released := true, state := some s }
    | .error _ => { val := false, opened := true, released := false, state := none }

/-- The whole fallible computation of `delete_emails`. -/
def deleteWhole (c : ImapConn σ) (email_ids : List String) (folder : String) :
    Except ImapExc σ :=
  match c.connect with
  | .error e => .error e
  | .ok s₀ => deleteAttempt c s₀ email_ids folder

/-- Python truthiness of `from_address` (`if from_address:`). -/
def truthyStr (o : Option String) : Bool :=
  match o with
  | none => false
  | some s => !(s == "")

/-- Filter compilation in `search_emails`: collect the active criteria,
prepend `OR ` when more than one is active, use the single criterion alone
when exactly one is active, and fall back to `ALL` when none is. -/
def searchCriteria (keyword : String) (in_subject in_body : Bool)
    (from_address : Option String) : String :=
  let parts : List String :=
    (if in_subject then ["SUBJECT \"" ++ keyword ++ "\""] else [])
      ++ (if in_body then ["BODY \"" ++ keyword ++ "\""] else [])
      ++ (if truthyStr from_address then ["FROM \"" ++ from_address.getD "" ++ "\""] else [])
  if parts.length > 1 then "OR " ++ joinSpace parts
  else match parts with
    | [] => "ALL"
    | p :: _ => p

/-- `EmailHelper.search_emails`: compile the filter and delegate to
`read_emails` (with its default `limit=10`, `unread_only=False`). -/
def search_emails (c : ImapConn σ) (keyword : String) (folder : String)
    (in_subject in_body : Bool) (from_address : Option String) :
    ImapRun σ (List EmailData) :=
  read_emails c folder 10 false (some (searchCriteria keyword in_subject in_body from_address))

/-- Is a fallible computation successful? -/
def isOkB : Except ε α → Bool
  | .ok _ => true
  | .error _ => false

/-- The list produced by a successful retrieval computation. -/
def okList : Except ImapExc (List EmailData × σ) → Option (List EmailData)
  | .ok (es, _) => some es
  | .error _ => none

/-! ### The remote mail store, modelled from the specification -/

/-- Modelled from the spec: one message held by the server, with its
opaque identifier, its parsed headers/content, and its per-message `seen`
and `deleted` flags ("a per-message server-side boolean marker
(seen/deleted) mutated in place"). -/
structure StoredMsg where
  uid : String
  msg : FetchedMsg
  seen : Bool
  deleted : Bool
deriving DecidableEq, Repr

/-- Modelled from the spec: a folder of the remote store, its messages in
the server's natural oldest-first order. -/
structure ServerState where
  msgs : List StoredMsg
deriving DecidableEq, Repr

/-- Remove the leading characters `p` from `s`, or fail. -/
def stripPreL : List Char → List Char → Option (List Char)
  | [], s => some s
  | _ :: _, [] => none
  | p :: ps, c :: cs => if p = c then stripPreL ps cs else none

/-- Remove one trailing `"` from `s`, or fail. -/
def stripQuoteSuf (s : List Char) : Option (List Char) :=
  match s.reverse with
  | '"' :: rest => some rest.reverse
  | _ => none

/-- An atomic server-side search criterion. -/
inductive Crit where
  | subj (k : List Char)
  | bodyK (k : List Char)
  | fromA (a : List Char)
deriving DecidableEq, Repr

/-- Parse one quoted atomic criterion, `SUBJECT "k"`, `BODY "k"` or
`FROM "a"`. -/
def parseAtom (c : List Char) : Option Crit :=
  match stripPreL "SUBJECT \"".data c with
  | some r => (stripQuoteSuf r).map Crit.subj
  | none =>
    match stripPreL "BODY \"".data c with
    | some r => (stripQuoteSuf r).map Crit.bodyK
    | none =>
      match stripPreL "FROM \"".data c with
      | some r => (stripQuoteSuf r).map Crit.fromA
      | none => none

/-- Modelled from the spec: whether a stored message matches one atomic
criterion — keyword contained in the subject, in the decoded body, or
sender filter ("free-form keyword plus toggles for match subject / match
body plus optional sender filter"). -/
def critMatches (cr : Crit) (m : StoredMsg) : Bool :=
  match cr with
  | .subj k => containsSub k (m.msg.subject.getD "").data
  | .bodyK k => containsSub k (get_email_body m.msg.content).data
  | .fromA a => containsSub a (m.msg.sender.getD "").data

/-- Modelled from the spec: the server-side search — `ALL` selects every
message, `UNSEEN` the messages whose seen-flag is unset, and an atomic
quoted criterion the matching messages; identifiers are returned in the
server's natural oldest-first order.  (Compound `OR` expressions are not
interpreted by the model; no proved statement evaluates one.) -/
def serverSearch (st : ServerState) (c : String) : List String :=
  if c = "ALL" then st.msgs.map (·.uid)
  else if c = "UNSEEN" then (st.msgs.filter (fun m => !m.seen)).map (·.uid)
  else
    match parseAtom c.data with
    | some cr => (st.msgs.filter (critMatches cr)).map (·.uid)
    | none => []

/-- Modelled from the spec: `STORE +FLAGS` — set the named flag on every
message carrying the given identifier, leaving everything else unchanged. -/
def serverStore (st : ServerState) (i : String) (flag : String) : ServerState :=
  { msgs := st.msgs.map (fun m =>
      if m.uid == i then
        (if flag == "\\Seen" then { m with seen := true }
         else if flag == "\\Deleted" then { m with deleted := true }
         else m)
      else m) }

/-- Modelled from the spec: compaction — "the act of permanently removing
all messages currently flagged for deletion in a folder". -/
def serverExpunge (st : ServerState) : ServerState :=
  { msgs := st.msgs.filter (fun m => !m.deleted) }

/-- Modelled from the spec: a reachable, correctly behaving server holding
the state `st`; every protocol step succeeds, `fetch` returns the first
message carrying the requested identifier. -/
def serverConn (st : ServerState) : ImapConn ServerState :=
  { connect := .ok st
  , login := fun s => .ok s
  , select := fun _ s => .ok s
  , search := fun cr s => .ok (serverSearch s cr, s)
  , fetch := fun i s =>
      match s.msgs.find? (fun m => m.uid == i) with
      | some m => .ok (m.msg, s)
      | none => .error .err
  , store := fun i fl s => .ok (serverStore s i fl)
  , expunge := fun s => .ok (serverExpunge s)
  , close := fun s => .ok s
  , logout := fun s => .ok s }

/-- The server state after the flagging loop of `delete_emails`. -/
def flagDeleted (st : ServerState) (ids : List String) : ServerState :=
  ids.foldl (fun s i => serverStore s i "\\Deleted") st

/-! ### Concrete fixtures used by witnesses and counterexamples -/

/-- A connection whose transport fails during `fetch`, after the session
was opened. -/
def fetchFailConn : ImapConn Unit :=
  { connect := .ok ()
  , login := fun s => .ok s
  , select := fun _ s => .ok s
  , search := fun _ s => .ok (["1"], s)
  , fetch := fun _ _ => .error .err
  , store := fun _ _ s => .ok s
  , expunge := fun s => .ok s
  , close := fun s => .ok s
  , logout := fun s => .ok s }

/-- A plain-text message content fixture. -/
def plainContent : EmailMsg :=
  .single (strBytes "hello")

/-- A fetched-message fixture. -/
def fmsg1 : FetchedMsg :=
  { subject := some "invoice 42", sender := some "alice@example.com"
  , rcpt := some "bob@example.com", date := some "Mon, 1 Jan 2024 00:00:00 +0000"
  , content := plainContent }

/-- A second fetched-message fixture. -/
def fmsg2 : FetchedMsg :=
  { subject := some "holiday plans", sender := some "carol@example.com"
  , rcpt := some "bob@example.com", date := some "Tue, 2 Jan 2024 00:00:00 +0000"
  , content := plainContent }

/-- A one-message folder. -/
def stOne : ServerState :=
  { msgs := [{ uid := "1", msg := fmsg1, seen := false, deleted := false }] }

/-- A two-message folder: an unseen invoice message and a seen unrelated
message. -/
def stTwo : ServerState :=
  { msgs :=
      [ { uid := "1", msg := fmsg1, seen := false, deleted := false }
      , { uid := "2", msg := fmsg2, seen := true, deleted := false } ] }

/-- Credential fixture. -/
def cfgW : Cfg :=
  { email_address := "me@example.com", password := "secret" }

/-- `send_email` argument fixture, with cc and bcc lists. -/
def inpW : SendInput :=
  { to_email := "to@example.com", subject := "hi", body := "hello"
  , cc := some ["cc@example.com"], bcc := some ["bcc@example.com"], html := false }

/-- A fully successful SMTP transport. -/
def smtpOk : SmtpBehavior :=
  { connect := .ok (), starttls := .ok (), login := .ok (), send := .ok () }

/-- An SMTP transport that rejects the credentials at `login`. -/
def smtpAuthReject : SmtpBehavior :=
  { connect := .ok (), starttls := .ok (), login := .error .authentication
  , send := .ok () }

/-- An HTML part whose tag-stripped content is empty. -/
def cexHtmlEmpty : Part :=
  { content_type := "text/html", content_disposition := "None"
  , payload := strBytes "<b></b>" }

/-- An HTML part whose tag-stripped content is `"x"`. -/
def cexHtmlX : Part :=
  { content_type := "text/html", content_disposition := "None"
  , payload := strBytes "x" }

/-- The HTML part `<b>Hi</b> there` named by the specification. -/
def htmlHiPart : Part :=
  { content_type := "text/html", content_disposition := "None"
  , payload := strBytes "<b>Hi</b> there" }

/-! ### Helper lemmas -/

theorem pyTruncate_subset (ids : List α) (n : Nat) : pyTruncate ids n ⊆ ids := by
  unfold pyTruncate
  split
  · split
    · exact List.Subset.refl _
    · exact List.drop_subset _ _
  · exact List.Subset.refl _

theorem pyTruncate_length_le (ids : List α) (n : Nat) (h : 1 ≤ n) :
    (pyTruncate ids n).length ≤ n := by
  unfold pyTruncate
  split
  · split
    · omega
    · rename_i hlt _
      rw [List.length_drop]
      omega
  · rename_i hge
    omega

theorem serverSearch_mem (st : ServerState) (c : String) (i : String)
    (h : i ∈ serverSearch st c) : ∃ m ∈ st.msgs, m.uid = i := by
  unfold serverSearch at h
  split at h
  · obtain ⟨m, hm, hmu⟩ := List.mem_map.mp h
    exact ⟨m, hm, hmu⟩
  · split at h
    · obtain ⟨m, hm, hmu⟩ := List.mem_map.mp h
      exact ⟨m, List.mem_of_mem_filter hm, hmu⟩
    · split at h
      · obtain ⟨m, hm, hmu⟩ := List.mem_map.mp h
        exact ⟨m, List.mem_of_mem_filter hm, hmu⟩
      · simp at h

theorem serverSearch_all (st : ServerState) :
    serverSearch st "ALL" = st.msgs.map (·.uid) := by
  simp [serverSearch]

theorem serverSearch_unseen (st : ServerState) :
    serverSearch st "UNSEEN" = (st.msgs.filter (fun m => !m.seen)).map (·.uid) := by
  simp [serverSearch]

theorem stripPreL_append : ∀ (p s : List Char), stripPreL p (p ++ s) = some s := by
  intro p
  induction p with
  | nil => intro s; rfl
  | cons c cs ih => intro s; simp [stripPreL, ih]

theorem stripQuoteSuf_append (k : List Char) : stripQuoteSuf (k ++ ['"']) = some k := by
  simp [stripQuoteSuf, List.reverse_append]

theorem subjectFilter_data (k : String) :
    ("SUBJECT \"" ++ k ++ "\"").data = "SUBJECT \"".data ++ (k.data ++ ['"']) := by
  have hq : ("\"" : String).data = ['"'] := by decide
  simp [String.data_append, hq]

theorem parseAtom_subject (k : String) :
    parseAtom ("SUBJECT \"" ++ k ++ "\"").data = some (.subj k.data) := by
  rw [subjectFilter_data]
  unfold parseAtom
  rw [stripPreL_append]
  simp [stripQuoteSuf_append]

theorem subjectFilter_ne_all (k : String) : ("SUBJECT \"" ++ k ++ "\"") ≠ "ALL" := by
  intro h
  have hlen := congrArg String.length h
  have h1 : ("SUBJECT \"" : String).length = 9 := by decide
  have h2 : ("\"" : String).length = 1 := by decide
  have h3 : ("ALL" : String).length = 3 := by decide
  rw [String.length_append, String.length_append, h1, h2, h3] at hlen
  omega

theorem subjectFilter_ne_unseen (k : String) : ("SUBJECT \"" ++ k ++ "\"") ≠ "UNSEEN" := by
  intro h
  have hlen := congrArg String.length h
  have h1 : ("SUBJECT \"" : String).length = 9 := by decide
  have h2 : ("\"" : String).length = 1 := by decide
  have h3 : ("UNSEEN" : String).length = 6 := by decide
  rw [String.length_append, String.length_append, h1, h2, h3] at hlen
  omega

theorem serverSearch_subject (st : ServerState) (k : String) :
    serverSearch st ("SUBJECT \"" ++ k ++ "\"")
      = (st.msgs.filter (critMatches (.subj k.data))).map (·.uid) := by
  unfold serverSearch
  rw [if_neg (subjectFilter_ne_all k), if_neg (subjectFilter_ne_unseen k),
    parseAtom_subject]

theorem subjectFilter_ne_empty (k : String) : (("SUBJECT \"" ++ k ++ "\"") == "") = false := by
  rw [beq_eq_false_iff_ne]
  intro h
  have hlen := congrArg String.length h
  have h1 : ("SUBJECT \"" : String).length = 9 := by decide
  have h2 : ("\"" : String).length = 1 := by decide
  have h3 : ("" : String).length = 0 := by decide
  rw [String.length_append, String.length_append, h1, h2, h3] at hlen
  omega

theorem ok_bind (a : α) (f : α → Except ε β) : (Except.ok a : Except ε α) >>= f = f a :=
  rfl

theorem error_bind (e : ε) (f : α → Except ε β) :
    (Except.error e : Except ε α) >>= f = .error e :=
  rfl

theorem serverConn_login (st s : ServerState) : (serverConn st).login s = .ok s :=
  rfl

theorem serverConn_select (st : ServerState) (f : String) (s : ServerState) :
    (serverConn st).select f s = .ok s :=
  rfl

theorem serverConn_search (st : ServerState) (cr : String) (s : ServerState) :
    (serverConn st).search cr s = .ok (serverSearch s cr, s) :=
  rfl

theorem serverConn_store (st : ServerState) (i fl : String) (s : ServerState) :
    (serverConn st).store i fl s = .ok (serverStore s i fl) :=
  rfl

theorem serverConn_expunge (st s : ServerState) :
    (serverConn st).expunge s = .ok (serverExpunge s) :=
  rfl

theorem serverConn_close (st s : ServerState) : (serverConn st).close s = .ok s :=
  rfl

theorem serverConn_logout (st s : ServerState) : (serverConn st).logout s = .ok s :=
  rfl

theorem serverConn_fetch_eq (st : ServerState) (i : String) (s : ServerState)
    (m : StoredMsg) (h : s.msgs.find? (fun m => m.uid == i) = some m) :
    (serverConn st).fetch i s = .ok (m.msg, s) := by
  simp [serverConn, h]

theorem fetchLoop_server (st : ServerState) :
    ∀ ids : List String, (∀ i ∈ ids, ∃ m ∈ st.msgs, m.uid = i) →
      ∃ es : List EmailData,
        fetchLoop (serverConn st) ids st = .ok (es, st) ∧ es.map (·.id) = ids := by
  intro ids
  induction ids with
  | nil => intro _; exact ⟨[], rfl, rfl⟩
  | cons i is ih =>
    intro h
    obtain ⟨m, hm, hmu⟩ := h i (by simp)
    have hfind : (st.msgs.find? (fun m => m.uid == i)).isSome := by
      rw [List.find?_isSome]
      exact ⟨m, hm, by simp [hmu]⟩
    obtain ⟨m', hm'⟩ := Option.isSome_iff_exists.mp hfind
    obtain ⟨es, hes, hmap⟩ := ih (fun j hj => h j (List.mem_cons_of_mem _ hj))
    refine ⟨mkEmailData i m'.msg :: es, ?_, by simp [hmap, mkEmailData]⟩
    simp only [fetchLoop, serverConn_fetch_eq st i st m' hm', ok_bind, hes]
    rfl

theorem read_emails_server (st : ServerState) (f : String) (l : Nat) (u : Bool)
    (sc : Option String) :
    (read_emails (serverConn st) f l u sc).val.map (·.id)
        = (pyTruncate (serverSearch st (buildCriteria sc u)) l).reverse
      ∧ (read_emails (serverConn st) f l u sc).opened = true
      ∧ (read_emails (serverConn st) f l u sc).released = true
      ∧ (read_emails (serverConn st) f l u sc).state = some st := by
  have hsub : ∀ i ∈ (pyTruncate (serverSearch st (buildCriteria sc u)) l).reverse,
      ∃ m ∈ st.msgs, m.uid = i := by
    intro i hi
    rw [List.mem_reverse] at hi
    exact serverSearch_mem st _ i (pyTruncate_subset _ _ hi)
  obtain ⟨es, hes, hmap⟩ := fetchLoop_server st _ hsub
  have hatt : readAttempt (serverConn st) st f l u sc = .ok (es, st) := by
    unfold readAttempt
    simp only [serverConn_login, serverConn_select, serverConn_search,
      serverConn_close, serverConn_logout, ok_bind]
    simp only [hes, ok_bind]
    rfl
  have hread : read_emails (serverConn st) f l u sc
      = { val := es, opened := true, released := true, state := some st } := by
    unfold read_emails
    rw [show (serverConn st).connect = Except.ok st from rfl]
    simp only [hatt]
  rw [hread]
  exact ⟨hmap, rfl, rfl, rfl⟩

theorem storeLoop_server (fl : String) :
    ∀ (ids : List String) (st s : ServerState),
      storeLoop (serverConn st) fl ids s
        = .ok (ids.foldl (fun s i => serverStore s i fl) s) := by
  intro ids
  induction ids with
  | nil => intro st s; rfl
  | cons i is ih =>
    intro st s
    simp only [storeLoop, serverConn_store, ok_bind, ih, List.foldl_cons]

theorem deleteAttempt_server (st : ServerState) (ids : List String) (f : String) :
    deleteAttempt (serverConn st) st ids f = .ok (serverExpunge (flagDeleted st ids)) := by
  unfold deleteAttempt
  simp only [serverConn_login, serverConn_select, serverConn_expunge,
    serverConn_close, serverConn_logout, ok_bind, storeLoop_server]
  rfl

theorem delete_emails_server (st : ServerState) (ids : List String) (f : String) :
    delete_emails (serverConn st) ids f
      = { val := true, opened := true, released := true
        , state := some (serverExpunge (flagDeleted st ids)) } := by
  unfold delete_emails
  rw [show (serverConn st).connect = Except.ok st from rfl]
  simp only [deleteAttempt_server]

theorem flagDeleted_msgs (ids : List String) : ∀ st : ServerState,
    (flagDeleted st ids).msgs
      = st.msgs.map (fun m => if m.uid ∈ ids then { m with deleted := true } else m) := by
  induction ids with
  | nil =>
    intro st
    simp [flagDeleted]
  | cons i is ih =>
    intro st
    have h1 : flagDeleted st (i :: is) = flagDeleted (serverStore st i "\\Deleted") is := rfl
    rw [h1, ih]
    have hsd : (("\\Deleted" : String) == "\\Seen") = false := by decide
    have hdd : (("\\Deleted" : String) == "\\Deleted") = true := by decide
    simp only [serverStore, hsd, hdd, List.map_map]
    apply List.map_congr_left
    intro m _
    by_cases hui : m.uid = i
    · simp [Function.comp, hui]
    · by_cases his : m.uid ∈ is
      · simp [Function.comp, hui, his]
      · simp [Function.comp, hui, his]

theorem serverExpunge_mem (s : ServerState) (m : StoredMsg) :
    m ∈ (serverExpunge s).msgs ↔ m ∈ s.msgs ∧ m.deleted = false := by
  simp [serverExpunge, List.mem_filter]

theorem flagDeleted_uid_deleted (st : ServerState) (ids : List String) (m : StoredMsg)
    (hm : m ∈ (flagDeleted st ids).msgs) (hu : m.uid ∈ ids) : m.deleted = true := by
  rw [flagDeleted_msgs] at hm
  obtain ⟨m0, hm0, heq⟩ := List.mem_map.mp hm
  by_cases h : m0.uid ∈ ids
  · rw [if_pos h] at heq
    rw [← heq]
  · rw [if_neg h] at heq
    subst heq
    exact absurd hu h

theorem getBodyLoop_spec : ∀ (parts : List Part) (b : String),
    getBodyLoop parts b =
      (match firstPlainPart parts with
       | some p => decodeIgnore p.payload
       | none =>
         if b == "" then ((htmlStrips parts).find? (fun s => !(s == ""))).getD "" else b) := by
  intro parts
  induction parts with
  | nil =>
    intro b
    cases hb : b == "" with
    | true =>
      have hbe : b = "" := by simpa using hb
      simp [getBodyLoop, firstPlainPart, htmlStrips, hbe]
    | false =>
      simp [getBodyLoop, firstPlainPart, htmlStrips, hb]
  | cons p rest ih =>
    intro b
    cases hpl : isPlainNonAttachment p with
    | true =>
      have hfp : firstPlainPart (p :: rest) = some p := by
        simp only [firstPlainPart, List.find?_cons, hpl]
      simp only [getBodyLoop]
      rw [show (p.content_type == "text/plain"
        && !(containsSub "attachment".data p.content_disposition.data))
          = true from hpl]
      simp [hfp]
    | false =>
      have hfp : firstPlainPart (p :: rest) = firstPlainPart rest := by
        simp only [firstPlainPart, List.find?_cons, hpl]
      simp only [getBodyLoop]
      rw [show (p.content_type == "text/plain"
        && !(containsSub "attachment".data p.content_disposition.data))
          = false from hpl]
      simp only [Bool.false_eq_true, if_false]
      cases hh : p.content_type == "text/html" with
      | false =>
        have hhs : htmlStrips (p :: rest) = htmlStrips rest := by
          simp [htmlStrips, List.filter_cons, hh]
        simp only [Bool.false_and, Bool.false_eq_true, if_false]
        rw [ih b, hfp, hhs]
      | true =>
        cases hb : b == "" with
        | false =>
          simp only [Bool.true_and, Bool.false_eq_true, if_false]
          rw [ih b, hfp]
          cases hfpr : firstPlainPart rest with
          | some q => rfl
          | none => simp [hb]
        | true =>
          simp only [Bool.true_and, eq_self_iff_true, if_true]
          rw [ih (stripTags (decodeIgnore p.payload)), hfp]
          have hhtml : htmlStrips (p :: rest)
              = stripTags (decodeIgnore p.payload) :: htmlStrips rest := by
            simp [htmlStrips, List.filter_cons, hh]
          cases hfpr : firstPlainPart rest with
          | some q => rfl
          | none =>
            cases hsb : stripTags (decodeIgnore p.payload) == "" with
            | true =>
              have hb' : stripTags (decodeIgnore p.payload) = "" := by simpa using hsb
              simp [hb, hhtml, List.find?_cons, hsb, hb']
            | false =>
              simp [hb, hhtml, List.find?_cons, hsb]

theorem mem_buildRecipients (inp : SendInput) (x : String) :
    x ∈ buildRecipients inp
      ↔ x = inp.to_email ∨ x ∈ inp.cc.getD [] ∨ x ∈ inp.bcc.getD [] := by
  unfold buildRecipients truthyList
  cases hcc : inp.cc with
  | none =>
    cases hbcc : inp.bcc with
    | none => simp
    | some lb => cases lb <;> simp [or_assoc]
  | some lc =>
    cases hbcc : inp.bcc with
    | none => cases lc <;> simp [or_assoc]
    | some lb => cases lc <;> cases lb <;> simp [or_assoc]

theorem read_emails_connect_error (c : ImapConn σ) (f : String) (l : Nat)
    (u : Bool) (sc : Option String) (e : ImapExc) (h : c.connect = .error e) :
    read_emails c f l u sc
      = { val := [], opened := false, released := false, state := none } := by
  unfold read_emails
  rw [h]

theorem read_emails_connect_ok (c : ImapConn σ) (s₀ : σ) (h : c.connect = .ok s₀)
    (f : String) (l : Nat) (u : Bool) (sc : Option String) :
    read_emails c f l u sc
      = match readAttempt c s₀ f l u sc with
        | .ok (es, s) => { val := es, opened := true, released := true, state := some s }
        | .error _ => { val := [], opened := true, released := false, state := none } := by
  unfold read_emails
  rw [h]

theorem readWhole_connect_error (c : ImapConn σ) (f : String) (l : Nat)
    (u : Bool) (sc : Option String) (e : ImapExc) (h : c.connect = .error e) :
    readWhole c f l u sc = .error e := by
  unfold readWhole
  rw [h]

theorem readWhole_connect_ok (c : ImapConn σ) (s₀ : σ) (h : c.connect = .ok s₀)
    (f : String) (l : Nat) (u : Bool) (sc : Option String) :
    readWhole c f l u sc = readAttempt c s₀ f l u sc := by
  unfold readWhole
  rw [h]

theorem mark_connect_error (c : ImapConn σ) (ids : List String) (f : String)
    (e : ImapExc) (h : c.connect = .error e) :
    mark_as_read c ids f
      = { val := false, opened := false, released := false, state := none } := by
  unfold mark_as_read
  rw [h]

theorem mark_connect_ok (c : ImapConn σ) (s₀ : σ) (h : c.connect = .ok s₀)
    (ids : List String) (f : String) :
    mark_as_read c ids f
      = match markAttempt c s₀ ids f with
        | .ok s => { val := true, opened := true, released := true, state := some s }
        | .error _ => { val := false, opened := true, released := false, state := none } := by
  unfold mark_as_read
  rw [h]

theorem markWhole_connect_error (c : ImapConn σ) (ids : List String) (f : String)
    (e : ImapExc) (h : c.connect = .error e) :
    markWhole c ids f = .error e := by
  unfold markWhole
  rw [h]

theorem markWhole_connect_ok (c : ImapConn σ) (s₀ : σ) (h : c.connect = .ok s₀)
    (ids : List String) (f : String) :
    markWhole c ids f = markAttempt c s₀ ids f := by
  unfold markWhole
  rw [h]

theorem delete_connect_error (c : ImapConn σ) (ids : List String) (f : String)
    (e : ImapExc) (h : c.connect = .error e) :
    delete_emails c ids f
      = { val := false, opened := false, released := false, state := none } := by
  unfold delete_emails
  rw [h]

theorem delete_connect_ok (c : ImapConn σ) (s₀ : σ) (h : c.connect = .ok s₀)
    (ids : List String) (f : String) :
    delete_emails c ids f
      = match deleteAttempt c s₀ ids f with
        | .ok s => { val := true, opened := true, released := true, state := some s }
        | .error _ => { val := false, opened := true, released := false, state := none } := by
  unfold delete_emails
  rw [h]

theorem deleteWhole_connect_error (c : ImapConn σ) (ids : List String) (f : String)
    (e : ImapExc) (h : c.connect = .error e) :
    deleteWhole c ids f = .error e := by
  unfold deleteWhole
  rw [h]

theorem deleteWhole_connect_ok (c : ImapConn σ) (s₀ : σ) (h : c.connect = .ok s₀)
    (ids : List String) (f : String) :
    deleteWhole c ids f = deleteAttempt c s₀ ids f := by
  unfold deleteWhole
  rw [h]

/-! ### The claims -/

/-- C1: `send_email` never propagates an exception: it returns `true`
exactly when the transport succeeded, `false` with the distinct
authentication diagnostic when the server rejected the credentials, and
`false` with the generic diagnostic on any other transport error (the
function is total — every exception of the attempt is converted to a
boolean return). -/
theorem c1_send_never_raises (cfg : Cfg) (inp : SendInput) (sb : SmtpBehavior) :
    ((send_email cfg inp sb).result = true ↔ smtpAttempt sb = .ok ())
    ∧ ((send_email cfg inp sb).result = false ↔ smtpAttempt sb ≠ .ok ())
    ∧ ((send_email cfg inp sb).diag = .sentOk ↔ smtpAttempt sb = .ok ())
    ∧ ((send_email cfg inp sb).diag = .authFailed
        ↔ smtpAttempt sb = .error .authentication)
    ∧ ((send_email cfg inp sb).diag = .sendFailed ↔ smtpAttempt sb = .error .other) := by
  cases hs : smtpAttempt sb with
  | ok u => cases u; simp [send_email, hs]
  | error e => cases e <;> simp [send_email, hs]

/-- C2: on every successful `send_email` call the transport is handed the
message and exactly the recipient set `{to} ∪ cc ∪ bcc`, the visible
headers are `From`, `To`, `Subject` plus `Cc` exactly when `cc` is
non-empty, no header is named `Bcc`, and the headers do not depend on
`bcc` at all. -/
theorem c2_send_recipients_and_headers (cfg : Cfg) (inp : SendInput)
    (sb : SmtpBehavior) (h : (send_email cfg inp sb).result = true) :
    (send_email cfg inp sb).transmitted
        = some (buildMessage cfg inp, buildRecipients inp)
    ∧ (∀ x, x ∈ buildRecipients inp
        ↔ x = inp.to_email ∨ x ∈ inp.cc.getD [] ∨ x ∈ inp.bcc.getD [])
    ∧ ((buildMessage cfg inp).headers.map Prod.fst
        = if inp.cc.getD [] = [] then ["From", "To", "Subject"]
          else ["From", "To", "Subject", "Cc"])
    ∧ (∀ n ∈ (buildMessage cfg inp).headers.map Prod.fst, n ≠ "Bcc")
    ∧ buildMessage cfg inp = buildMessage cfg { inp with bcc := none } := by
  have hnames : (buildMessage cfg inp).headers.map Prod.fst
      = if inp.cc.getD [] = [] then ["From", "To", "Subject"]
        else ["From", "To", "Subject", "Cc"] := by
    unfold buildMessage truthyList
    cases hcc : inp.cc with
    | none => simp
    | some lc => cases lc <;> simp
  refine ⟨?_, mem_buildRecipients inp, hnames, ?_, rfl⟩
  · cases hs : smtpAttempt sb with
    | ok u => cases u; simp [send_email, hs]
    | error e =>
      exfalso
      cases e <;> simp [send_email, hs] at h
  · intro n hmem
    rw [hnames] at hmem
    by_cases hcc : inp.cc.getD [] = []
    · rw [if_pos hcc] at hmem
      simp only [List.mem_cons, List.not_mem_nil, or_false] at hmem
      rcases hmem with rfl | rfl | rfl <;> decide
    · rw [if_neg hcc] at hmem
      simp only [List.mem_cons, List.not_mem_nil, or_false] at hmem
      rcases hmem with rfl | rfl | rfl | rfl <;> decide

/-- C2 witness: a concrete successful send, with cc and bcc supplied. -/
theorem c2_send_recipients_and_headers_witness :
    (send_email cfgW inpW smtpOk).result = true
    ∧ ((send_email cfgW inpW smtpOk).transmitted
          = some (buildMessage cfgW inpW, buildRecipients inpW)
      ∧ (∀ x, x ∈ buildRecipients inpW
          ↔ x = inpW.to_email ∨ x ∈ inpW.cc.getD [] ∨ x ∈ inpW.bcc.getD [])
      ∧ ((buildMessage cfgW inpW).headers.map Prod.fst
          = if inpW.cc.getD [] = [] then ["From", "To", "Subject"]
            else ["From", "To", "Subject", "Cc"])
      ∧ (∀ n ∈ (buildMessage cfgW inpW).headers.map Prod.fst, n ≠ "Bcc")
      ∧ buildMessage cfgW inpW = buildMessage cfgW { inpW with bcc := none }) :=
  ⟨rfl, c2_send_recipients_and_headers cfgW inpW smtpOk rfl⟩

/-- C5 counterexample: in the multipart message whose walk order is an
HTML part stripping to the empty string followed by an HTML part stripping
to `"x"`, the code returns `"x"`, not the tag-stripped first HTML part
(which is empty) — the source keeps scanning while the accumulated body is
still the empty string, so the claim's "first rich-text part" is wrong. -/
theorem c5_body_decoding_counterexample :
    get_email_body (.multipart [cexHtmlEmpty, cexHtmlX]) = "x"
    ∧ firstPlainPart [cexHtmlEmpty, cexHtmlX] = none
    ∧ cexHtmlEmpty.content_type = "text/html"
    ∧ pyStrip (stripTags (decodeIgnore cexHtmlEmpty.payload)) = ""
    ∧ stripTags (decodeIgnore cexHtmlEmpty.payload) = ""
    ∧ get_email_body (.multipart [cexHtmlEmpty, cexHtmlX])
        ≠ pyStrip (stripTags (decodeIgnore cexHtmlEmpty.payload)) := by
  refine ⟨by decide, by decide, by decide, by decide, by decide, by decide⟩

/-- C5 amended: multipart decoding returns the first plain-text
non-attachment part when one exists; otherwise the first HTML part whose
naively tag-stripped content is non-empty (HTML parts stripping to the
empty string are passed over), or the empty string when none qualifies; a
single-part payload is decoded directly; the final result is trimmed of
surrounding whitespace; undecodable bytes are discarded rather than
raising; and the specification's own example `<b>Hi</b> there` decodes to
`"Hi there"`. -/
theorem c5_body_decoding_amended (parts : List Part) (payload pre post : Bytes) :
    get_email_body (.multipart parts) = pyStrip (bodySpec parts)
    ∧ get_email_body (.single payload) = pyStrip (decodeIgnore payload)
    ∧ decodeIgnore (pre ++ none :: post) = decodeIgnore (pre ++ post)
    ∧ get_email_body (.multipart [htmlHiPart]) = "Hi there" := by
  refine ⟨?_, rfl, ?_, by decide⟩
  · show pyStrip (getBodyLoop parts "") = pyStrip (bodySpec parts)
    rw [getBodyLoop_spec]
    unfold bodySpec
    cases firstPlainPart parts <;> simp
  · simp [decodeIgnore]

/-- C6: a list or search call never returns partially fetched results:
either the whole fallible computation succeeded and the returned list is
exactly its value, or the call returns the empty list (every exception is
caught); `search_emails` delegates to `read_emails`, so it inherits the
same contract. -/
theorem c6_read_empty_on_failure (c : ImapConn σ) (f : String) (l : Nat)
    (u : Bool) (sc : Option String) (k fol : String) (si bi : Bool)
    (fa : Option String) :
    (((read_emails c f l u sc).val = [] ∧ isOkB (readWhole c f l u sc) = false)
      ∨ okList (readWhole c f l u sc) = some (read_emails c f l u sc).val)
    ∧ search_emails c k fol si bi fa
        = read_emails c fol 10 false (some (searchCriteria k si bi fa)) := by
  refine ⟨?_, rfl⟩
  cases hc : c.connect with
  | error e =>
    rw [read_emails_connect_error c f l u sc e hc,
      readWhole_connect_error c f l u sc e hc]
    exact Or.inl ⟨rfl, rfl⟩
  | ok s₀ =>
    rw [read_emails_connect_ok c s₀ hc f l u sc, readWhole_connect_ok c s₀ hc f l u sc]
    cases ha : readAttempt c s₀ f l u sc with
    | ok p => cases p; exact Or.inr rfl
    | error e => exact Or.inl ⟨rfl, rfl⟩

/-- C9 counterexample: a retrieval call whose transport fails during
`fetch` opens the IMAP session and never releases it — the source has no
`finally`/`with` around the IMAP session, so the exception handler returns
with the session still open. -/
theorem c9_session_leak_counterexample :
    (read_emails fetchFailConn "INBOX" 10 false none).opened = true
    ∧ (read_emails fetchFailConn "INBOX" 10 false none).released = false := by
  exact ⟨rfl, rfl⟩

/-- C9 amended: only `send_email` releases its session on every exit path
(the `with` block closes it whenever it was opened); each IMAP-backed
operation releases its session exactly when the whole call, connection
included, succeeds — on any exception after the connection was opened the
session is left unreleased. -/
theorem c9_release_only_on_success (cfg : Cfg) (inp : SendInput)
    (sb : SmtpBehavior) (c : ImapConn σ) (f : String) (l : Nat) (u : Bool)
    (sc : Option String) (ids : List String) (f2 : String) (ids2 : List String)
    (f3 : String) :
    (send_email cfg inp sb).released = (send_email cfg inp sb).opened
    ∧ (read_emails c f l u sc).released = isOkB (readWhole c f l u sc)
    ∧ (mark_as_read c ids f2).released = isOkB (markWhole c ids f2)
    ∧ (delete_emails c ids2 f3).released = isOkB (deleteWhole c ids2 f3) := by
  refine ⟨?_, ?_, ?_, ?_⟩
  · cases hs : smtpAttempt sb with
    | ok u => simp [send_email, hs]
    | error e => cases e <;> simp [send_email, hs]
  · cases hc : c.connect with
    | error e =>
      rw [read_emails_connect_error c f l u sc e hc,
        readWhole_connect_error c f l u sc e hc]
      rfl
    | ok s₀ =>
      rw [read_emails_connect_ok c s₀ hc f l u sc,
        readWhole_connect_ok c s₀ hc f l u sc]
      cases ha : readAttempt c s₀ f l u sc with
      | ok p => cases p; rfl
      | error e => rfl
  · cases hc : c.connect with
    | error e =>
      rw [mark_connect_error c ids f2 e hc, markWhole_connect_error c ids f2 e hc]
      rfl
    | ok s₀ =>
      rw [mark_connect_ok c s₀ hc ids f2, markWhole_connect_ok c s₀ hc ids f2]
      cases ha : markAttempt c s₀ ids f2 with
      | ok s => rfl
      | error e => rfl
  · cases hc : c.connect with
    | error e =>
      rw [delete_connect_error c ids2 f3 e hc,
        deleteWhole_connect_error c ids2 f3 e hc]
      rfl
    | ok s₀ =>
      rw [delete_connect_ok c s₀ hc ids2 f3, deleteWhole_connect_ok c s₀ hc ids2 f3]
      cases ha : deleteAttempt c s₀ ids2 f3 with
      | ok s => rfl
      | error e => rfl

/-- C3 counterexample: with one message on the server, `read_emails` with
`limit = 0` returns one message, not at most zero — Python's
`email_ids[-0:]` slice is the whole list, so the truncation is skipped
entirely when the limit is `0`. -/
theorem c3_limit_zero_counterexample :
    (read_emails (serverConn stOne) "INBOX" 0 false none).val.length = 1
    ∧ ¬((read_emails (serverConn stOne) "INBOX" 0 false none).val.length ≤ 0) := by
  exact ⟨by decide, by decide⟩

/-- C3 amended: for every folder state and every limit `N ≥ 1`, the list
call returns the last `N` identifiers of the server's oldest-first
sequence, reversed (newest-first), and hence at most `N` messages; at
`N = 0` the limit is ignored and every message is returned. -/
theorem c3_list_limit_amended (st : ServerState) (f : String) (n : Nat)
    (h : 1 ≤ n) :
    (read_emails (serverConn st) f n false none).val.map (·.id)
        = (pyTruncate (st.msgs.map (·.uid)) n).reverse
    ∧ (read_emails (serverConn st) f n false none).val.length ≤ n := by
  obtain ⟨hmap, _, _, _⟩ := read_emails_server st f n false none
  have hcrit : buildCriteria none false = "ALL" := rfl
  rw [hcrit, serverSearch_all] at hmap
  refine ⟨hmap, ?_⟩
  have hlen : (read_emails (serverConn st) f n false none).val.length
      = ((pyTruncate (st.msgs.map (·.uid)) n).reverse).length := by
    rw [← hmap, List.length_map]
  rw [hlen, List.length_reverse]
  exact pyTruncate_length_le _ _ h

/-- C3 witness: the amended theorem applied at a concrete one-message
folder with limit 1. -/
theorem c3_list_limit_amended_witness :
    1 ≤ 1
    ∧ ((read_emails (serverConn stOne) "INBOX" 1 false none).val.map (·.id)
        = (pyTruncate (stOne.msgs.map (·.uid)) 1).reverse
      ∧ (read_emails (serverConn stOne) "INBOX" 1 false none).val.length ≤ 1) :=
  ⟨by decide, c3_list_limit_amended stOne "INBOX" 1 (by decide)⟩

/-- C4: a `delete_emails` call against the modelled server succeeds, flags
every requested identifier as deleted, then purges exactly the
deletion-flagged messages of the whole folder (folder-wide compaction, not
scoped to the requested ids); in particular, after `delete_emails [id1]`
succeeds, no subsequent list call on the resulting folder state ever
returns `id1`. -/
theorem c4_delete_flags_and_purges (st : ServerState) (ids : List String)
    (folder : String) (id1 : String) (f2 : String) (l : Nat) (u : Bool)
    (sc : Option String) :
    (delete_emails (serverConn st) ids folder).val = true
    ∧ (delete_emails (serverConn st) ids folder).state
        = some (serverExpunge (flagDeleted st ids))
    ∧ (∀ m ∈ (flagDeleted st ids).msgs, m.uid ∈ ids → m.deleted = true)
    ∧ (∀ m, m ∈ (serverExpunge (flagDeleted st ids)).msgs
        ↔ m ∈ (flagDeleted st ids).msgs ∧ m.deleted = false)
    ∧ (∀ st', (delete_emails (serverConn st) [id1] folder).state = some st' →
        ∀ e ∈ (read_emails (serverConn st') f2 l u sc).val, e.id ≠ id1) := by
  refine ⟨?_, ?_, ?_, ?_, ?_⟩
  · rw [delete_emails_server]
  · rw [delete_emails_server]
  · intro m hm hu
    exact flagDeleted_uid_deleted st ids m hm hu
  · intro m
    exact serverExpunge_mem _ m
  · intro st' hst' e he hid
    rw [delete_emails_server] at hst'
    have hst : st' = serverExpunge (flagDeleted st [id1]) := by
      cases hst'
      rfl
    subst hst
    obtain ⟨hmap, _, _, _⟩ :=
      read_emails_server (serverExpunge (flagDeleted st [id1])) f2 l u sc
    have hin : e.id ∈ (read_emails (serverConn (serverExpunge (flagDeleted st [id1])))
        f2 l u sc).val.map (·.id) := List.mem_map_of_mem _ he
    rw [hmap, List.mem_reverse] at hin
    obtain ⟨m, hm, hmu⟩ := serverSearch_mem _ _ _ (pyTruncate_subset _ _ hin)
    rw [serverExpunge_mem] at hm
    obtain ⟨hmem, hdel⟩ := hm
    have hflag : m.deleted = true := by
      refine flagDeleted_uid_deleted st [id1] m hmem ?_
      rw [hmu, hid]
      exact List.mem_singleton.mpr rfl
    rw [hflag] at hdel
    cases hdel

/-- C4 witness: deleting the first message of the two-message folder
succeeds, the resulting state is the compacted folder, and the second
message — still listed afterwards — does not carry the deleted
identifier. -/
theorem c4_delete_flags_and_purges_witness :
    (delete_emails (serverConn stTwo) ["1"] "INBOX").val = true
    ∧ (delete_emails (serverConn stTwo) ["1"] "INBOX").state
        = some (serverExpunge (flagDeleted stTwo ["1"]))
    ∧ (mkEmailData "2" fmsg2).id ≠ "1" :=
  ⟨(c4_delete_flags_and_purges stTwo ["1"] "INBOX" "1" "INBOX" 10 false none).1,
   (c4_delete_flags_and_purges stTwo ["1"] "INBOX" "1" "INBOX" 10 false none).2.1,
   (c4_delete_flags_and_purges stTwo ["1"] "INBOX" "1" "INBOX" 10 false none).2.2.2.2
     (serverExpunge (flagDeleted stTwo ["1"])) (by decide)
     (mkEmailData "2" fmsg2) (by decide)⟩

/-- C7: the server-side filter is resolved with an explicit non-empty
`search_criteria` winning, else `UNSEEN` when `unread_only` is set, else
`ALL`; consequently a list call with `unread_only = true` returns only
identifiers of messages whose seen-flag was unset in the server state at
call time. -/
theorem c7_filter_resolution (st : ServerState) (f : String) (l : Nat)
    (s : String) (u : Bool) :
    (s ≠ "" → buildCriteria (some s) u = s)
    ∧ buildCriteria none true = "UNSEEN"
    ∧ buildCriteria none false = "ALL"
    ∧ ∀ e ∈ (read_emails (serverConn st) f l true none).val,
        ∃ m ∈ st.msgs, m.uid = e.id ∧ m.seen = false := by
  refine ⟨?_, rfl, rfl, ?_⟩
  · intro hs
    have hb : (s == "") = false := beq_eq_false_iff_ne.mpr hs
    simp [buildCriteria, hb]
  · intro e he
    obtain ⟨hmap, _, _, _⟩ := read_emails_server st f l true none
    have hcrit : buildCriteria none true = "UNSEEN" := rfl
    rw [hcrit, serverSearch_unseen] at hmap
    have hin : e.id ∈ (read_emails (serverConn st) f l true none).val.map (·.id) :=
      List.mem_map_of_mem _ he
    rw [hmap, List.mem_reverse] at hin
    obtain ⟨m, hm, hmu⟩ := List.mem_map.mp (pyTruncate_subset _ _ hin)
    refine ⟨m, List.mem_of_mem_filter hm, hmu, ?_⟩
    have := List.of_mem_filter hm
    simpa using this

/-- C7 witness: the resolution applied at a non-empty explicit filter, and
the unseen-only guarantee applied at the two-message folder, whose unread
listing returns exactly the unseen message. -/
theorem c7_filter_resolution_witness :
    buildCriteria (some "FROM \"a\"") false = "FROM \"a\""
    ∧ ∃ m ∈ stTwo.msgs, m.uid = (mkEmailData "1" fmsg1).id ∧ m.seen = false :=
  ⟨(c7_filter_resolution stTwo "INBOX" 10 "FROM \"a\"" false).1 (by decide),
   (c7_filter_resolution stTwo "INBOX" 10 "FROM \"a\"" false).2.2.2
     (mkEmailData "1" fmsg1) (by decide)⟩

/-- C8: `search_emails` compiles its active criteria into one filter
string — the single criterion alone when exactly one toggle is active,
`OR` prepended to the space-joined criteria when more than one is — and
delegates to `read_emails` with that filter; in particular a subject-only
search returns only identifiers of messages whose subject contains the
keyword. -/
theorem c8_search_compilation (st : ServerState) (k fa f : String)
    (hfa : fa ≠ "") :
    searchCriteria k true false none = "SUBJECT \"" ++ k ++ "\""
    ∧ searchCriteria k false true none = "BODY \"" ++ k ++ "\""
    ∧ searchCriteria k true true none
        = "OR " ++ ("SUBJECT \"" ++ k ++ "\"" ++ " " ++ ("BODY \"" ++ k ++ "\""))
    ∧ searchCriteria k true true (some fa)
        = "OR " ++ ("SUBJECT \"" ++ k ++ "\"" ++ " "
            ++ ("BODY \"" ++ k ++ "\"" ++ " " ++ ("FROM \"" ++ fa ++ "\"")))
    ∧ search_emails (serverConn st) k f true false none
        = read_emails (serverConn st) f 10 false (some ("SUBJECT \"" ++ k ++ "\""))
    ∧ ∀ e ∈ (search_emails (serverConn st) k f true false none).val,
        ∃ m ∈ st.msgs, m.uid = e.id
          ∧ containsSub k.data (m.msg.subject.getD "").data = true := by
  have hfab : (fa == "") = false := beq_eq_false_iff_ne.mpr hfa
  refine ⟨rfl, rfl, rfl, ?_, rfl, ?_⟩
  · simp [searchCriteria, truthyStr, hfab, joinSpace]
  · intro e he
    obtain ⟨hmap, _, _, _⟩ :=
      read_emails_server st f 10 false (some ("SUBJECT \"" ++ k ++ "\""))
    have hcrit : buildCriteria (some ("SUBJECT \"" ++ k ++ "\"")) false
        = "SUBJECT \"" ++ k ++ "\"" := by
      simp [buildCriteria, subjectFilter_ne_empty]
    rw [hcrit, serverSearch_subject] at hmap
    have he' : e ∈ (read_emails (serverConn st) f 10 false
        (some ("SUBJECT \"" ++ k ++ "\""))).val := he
    have hin : e.id ∈ (read_emails (serverConn st) f 10 false
        (some ("SUBJECT \"" ++ k ++ "\""))).val.map (·.id) :=
      List.mem_map_of_mem _ he'
    rw [hmap, List.mem_reverse] at hin
    obtain ⟨m, hm, hmu⟩ := List.mem_map.mp (pyTruncate_subset _ _ hin)
    refine ⟨m, List.mem_of_mem_filter hm, hmu, ?_⟩
    have := List.of_mem_filter hm
    simpa [critMatches] using this

/-- C8 witness: the subject-only search for "invoice" on the two-message
folder returns the invoice message, whose subject contains the keyword. -/
theorem c8_search_compilation_witness :
    searchCriteria "invoice" true false none = "SUBJECT \"invoice\""
    ∧ ∃ m ∈ stTwo.msgs, m.uid = (mkEmailData "1" fmsg1).id
        ∧ containsSub "invoice".data ((m.msg.subject.getD "").data) = true :=
  ⟨(c8_search_compilation stTwo "invoice" "a" "INBOX" (by decide)).1,
   (c8_search_compilation stTwo "invoice" "a" "INBOX" (by decide)).2.2.2.2.2
     (mkEmailData "1" fmsg1) (by decide)⟩

/-- C10: with both toggles off and no sender filter, `search_emails`
compiles the filter to `ALL`, which selects every message of the folder —
the call neither fails nor returns an empty selection: it delegates to the
ordinary listing of all messages (subject to the default limit of 10). -/
theorem c10_search_no_criteria_selects_all (st : ServerState) (k f : String) :
    searchCriteria k false false none = "ALL"
    ∧ serverSearch st "ALL" = st.msgs.map (·.uid)
    ∧ (search_emails (serverConn st) k f false false none).val.map (·.id)
        = (pyTruncate (st.msgs.map (·.uid)) 10).reverse := by
  refine ⟨rfl, serverSearch_all st, ?_⟩
  obtain ⟨hmap, _, _, _⟩ := read_emails_server st f 10 false (some "ALL")
  have hcrit : buildCriteria (some "ALL") false = "ALL" := rfl
  rw [hcrit, serverSearch_all] at hmap
  exact hmap

end EmailHelper
